import Mathlib

set_option maxRecDepth 10000

/-
Shallow embedding of the point-location core in src/firedrake/locate.c.

Modelling decisions, each tied to the source:
* C `double` distances and the tolerance are modelled as rationals; the
  comparisons in the code (`<=`, `<`) are order comparisons that agree with
  the rational order on finite doubles.  The initializer `DBL_MAX`
  (line 26) is the exact rational value of the IEEE-754 constant,
  2^1024 - 2^971.
* The opaque ReferenceCoords buffers are a type parameter `R`: the code
  never inspects them, it only copies the scratch buffer wholesale
  (the memcpy calls).  A containment test returns the pair
  (scratch-buffer contents, signed L1 distance).
* The caller-provided output buffers `found_ref_coords` and
  `found_ref_cell_dist_l1` are modelled as `Option` fields of the search
  state: `none` means the buffer still holds its initial (never written)
  contents, `some v` means the core wrote `v` into it.
* `ncalls` is a ghost counter: it is incremented exactly once per
  containment-test invocation (each loop iteration calls the test once,
  lines 53, 78, 102, 125) and lets theorems speak about how many
  candidates were examined.
* The spatial index query result (the `ids` array filled at lines 41-43)
  is modelled as the list `ids` carried by the `Function` struct, since
  the query depends only on the index and the fixed query point.
* The local `RTError err = RT_None` (line 17) is never reassigned: the
  `Index_Intersects_id` call that would set it (line 40) is commented
  out.  `locate_indexed` takes the flag as an explicit argument so that
  the guard at line 46 can be analysed for every value of the flag, and
  `locate_cell` instantiates it with `RT_None` exactly as the code does.
  `idsFreed` records whether the exit path executed `free(ids)`
  (line 98); the early `return -1` at line 48 skips it.
-/

namespace Locate

/-- Minimal model of the libspatialindex RTError status enum: the code only
ever distinguishes `RT_None` from everything else (line 46). -/
inductive RTError where
  | RT_None : RTError
  | RT_Error : RTError
deriving DecidableEq

/-- Exact rational value of the IEEE-754 `DBL_MAX` constant used to
initialize `ref_cell_dist_l1` at line 26, namely 2 ^ 1024 - 2 ^ 971
(written as an integer cast so that it is already in reduced form). -/
def DBL_MAX : ℚ := ((2 ^ 1024 - 2 ^ 971 : ℕ) : ℚ)

/-- The mutable state of one `locate_cell` call: the result variable
`cell` (line 18), the running best distance `ref_cell_dist_l1`
(line 26), the two caller-owned output buffers (`none` = never written),
and the ghost containment-test invocation counter. -/
structure LocState (R : Type) where
  cell : ℤ
  ref_cell_dist_l1 : ℚ
  found_ref_coords : Option R
  found_ref_cell_dist_l1 : Option ℚ
  ncalls : ℕ
deriving DecidableEq

/-- State at function entry: `cell = -1` (line 18),
`ref_cell_dist_l1 = DBL_MAX` (line 26), output buffers untouched. -/
def initState {R : Type} : LocState R :=
  { cell := -1
    ref_cell_dist_l1 := DBL_MAX
    found_ref_coords := none
    found_ref_cell_dist_l1 := none
    ncalls := 0 }

/-- The fields of the C `struct Function` that `locate_cell` reads:
whether a spatial index is attached (`f->sidx2`, line 32), the extrusion
flag (lines 50, 100), the column and layer counts, and the candidate id
list that the rtree query produces for the query point (lines 41-43). -/
structure Function where
  sidx2 : Bool
  extruded : ℤ
  n_cols : ℤ
  n_layers : ℤ
  ids : List ℤ
deriving DecidableEq

/-- ExtrudedLayerCodec decode: lines 76-77,
`int c = ids[i] / nlayers; int l = ids[i] % nlayers;` with C99
truncating division and remainder. -/
def decodeLayered (id n_layers : ℤ) : ℤ × ℤ :=
  (Int.tdiv id n_layers, Int.tmod id n_layers)

/-- ExtrudedLayerCodec encode: line 145, `cell = c * f->n_layers + cell`. -/
def encodeLayered (column layer n_layers : ℤ) : ℤ :=
  column * n_layers + layer

/-- One iteration of the shared acceptance policy (the body repeated at
lines 53-70, 78-95, 102-119, 125-142): invoke the containment test
(`res` is its output: scratch-buffer contents and distance), then
- distance `<= 0`: exact hit; record everything and break (lines 54-60);
- else if strictly closer than the best so far: update the best distance,
  and if it is under `tolerance` tentatively record the candidate
  (lines 61-69);
- otherwise leave the state unchanged.
`candidate` is the value written into `cell` on acceptance.  Returns the
new state and whether the loop `break`s. -/
def tryCand {R : Type} (tolerance : ℚ) (s : LocState R) (candidate : ℤ)
    (res : R × ℚ) : LocState R × Bool :=
  let current := res.2
  if current ≤ 0 then
    ({ s with ncalls := s.ncalls + 1
              cell := candidate
              found_ref_coords := some res.1
              found_ref_cell_dist_l1 := some current }, true)
  else if current < s.ref_cell_dist_l1 then
    if current < tolerance then
      ({ s with ncalls := s.ncalls + 1
                ref_cell_dist_l1 := current
                cell := candidate
                found_ref_coords := some res.1
                found_ref_cell_dist_l1 := some current }, false)
    else
      ({ s with ncalls := s.ncalls + 1, ref_cell_dist_l1 := current }, false)
  else
    ({ s with ncalls := s.ncalls + 1 }, false)

/-- The acceptance-policy loop run over an explicit candidate sequence:
each element carries the value reported in `cell` on acceptance together
with the containment-test output for that candidate.  This is the shared
CellSearchEngine that each of the four concrete loops below instantiates. -/
def runCands {R : Type} (tolerance : ℚ) :
    List (ℤ × R × ℚ) → LocState R → LocState R × Bool
  | [], s => (s, false)
  | x :: xs, s =>
    let p := tryCand tolerance s x.1 x.2
    if p.2 then p else runCands tolerance xs p.1

/-- The candidate list of a counted C `for` loop `0 <= i < n`. -/
def intRange (n : ℤ) : List ℤ :=
  (List.range n.toNat).map (Nat.cast : ℕ → ℤ)

/-- Indexed flat loop (lines 51-71): iterate over the query ids, subtract
one from each id (line 52) before testing and reporting. -/
def loopIndexedFlat {R : Type} (tolerance : ℚ) (try_candidate : ℤ → R × ℚ) :
    List ℤ → LocState R → LocState R × Bool
  | [], s => (s, false)
  | id :: rest, s =>
    let p := tryCand tolerance s (id - 1) (try_candidate (id - 1))
    if p.2 then p else loopIndexedFlat tolerance try_candidate rest p.1

/-- Indexed layered loop (lines 74-96): decode each id into a
(column, layer) pair for the containment test (lines 76-78) but report
the raw undecoded id in `cell` (lines 81, 91). -/
def loopIndexedXtr {R : Type} (tolerance : ℚ) (try_candidate_xtr : ℤ → ℤ → R × ℚ)
    (n_layers : ℤ) : List ℤ → LocState R → LocState R × Bool
  | [], s => (s, false)
  | id :: rest, s =>
    let p := tryCand tolerance s id
      (try_candidate_xtr (decodeLayered id n_layers).1 (decodeLayered id n_layers).2)
    if p.2 then p else loopIndexedXtr tolerance try_candidate_xtr n_layers rest p.1

/-- Exhaustive flat loop (lines 101-120): iterate cells 0..n_cols-1. -/
def loopExhaustiveFlat {R : Type} (tolerance : ℚ) (try_candidate : ℤ → R × ℚ) :
    List ℤ → LocState R → LocState R × Bool
  | [], s => (s, false)
  | c :: rest, s =>
    let p := tryCand tolerance s c (try_candidate c)
    if p.2 then p else loopExhaustiveFlat tolerance try_candidate rest p.1

/-- Exhaustive layered inner loop (lines 124-143): iterate layers of one
column `c`; on acceptance `cell` records the layer index (lines 128, 138). -/
def loopLayers {R : Type} (tolerance : ℚ) (try_candidate_xtr : ℤ → ℤ → R × ℚ)
    (c : ℤ) : List ℤ → LocState R → LocState R × Bool
  | [], s => (s, false)
  | l :: rest, s =>
    let p := tryCand tolerance s l (try_candidate_xtr c l)
    if p.2 then p else loopLayers tolerance try_candidate_xtr c rest p.1

/-- Exhaustive layered outer loop (lines 123-148): run the inner layer
loop for each column; if it left any accepted result (`cell != -1`,
line 144) re-encode `cell` as the global id (line 145) and break. -/
def loopCols {R : Type} (tolerance : ℚ) (try_candidate_xtr : ℤ → ℤ → R × ℚ)
    (n_layers : ℤ) : List ℤ → LocState R → LocState R
  | [], s => s
  | c :: rest, s =>
    let t := (loopLayers tolerance try_candidate_xtr c (intRange n_layers) s).1
    if t.cell ≠ -1 then { t with cell := encodeLayered c t.cell n_layers }
    else loopCols tolerance try_candidate_xtr n_layers rest t

/-- Result of the indexed branch (lines 32-98): the final search state
plus whether `free(ids)` (line 98) was executed on the taken exit path.
The `err` flag argument is the value tested by the guard at line 46; the
early `return -1` at line 48 happens before any containment test and
before the `free`. -/
structure IndexedOutcome (R : Type) where
  state : LocState R
  idsFreed : Bool
deriving DecidableEq

/-- The indexed branch of locate_cell (lines 32-98), with the error flag
of the guard at line 46 explicit. -/
def locate_indexed {R : Type} (err : RTError) (extruded n_layers : ℤ)
    (ids : List ℤ) (tolerance : ℚ) (try_candidate : ℤ → R × ℚ)
    (try_candidate_xtr : ℤ → ℤ → R × ℚ) : IndexedOutcome R :=
  if err ≠ RTError.RT_None then
    { state := initState, idsFreed := false }
  else if extruded = 0 then
    { state := (loopIndexedFlat tolerance try_candidate ids initState).1
      idsFreed := true }
  else
    { state := (loopIndexedXtr tolerance try_candidate_xtr n_layers ids initState).1
      idsFreed := true }

/-- The whole of locate_cell (lines 8-152).  The local `err` is
`RT_None` (line 17) and is never reassigned, because the index call that
would set it (line 40) is commented out in the source.  Branch on the
index handle (line 32) and the extrusion flag (lines 50, 100). -/
def locate_cell {R : Type} (f : Function) (tolerance : ℚ)
    (try_candidate : ℤ → R × ℚ) (try_candidate_xtr : ℤ → ℤ → R × ℚ) :
    LocState R :=
  let err : RTError := RTError.RT_None
  if f.sidx2 then
    (locate_indexed err f.extruded f.n_layers f.ids tolerance
      try_candidate try_candidate_xtr).state
  else if f.extruded = 0 then
    (loopExhaustiveFlat tolerance try_candidate (intRange f.n_cols) initState).1
  else
    loopCols tolerance try_candidate_xtr f.n_layers (intRange f.n_cols) initState

/-- The candidate sequence (report value, containment-test output) that
the three single-loop variants feed to the shared acceptance policy:
indexed flat shifts ids down by one (line 52), indexed layered tests the
decoded pair but reports the raw id (lines 76-81), exhaustive flat
enumerates cells in increasing order (line 101).  The exhaustive layered
variant is a nested loop and is handled by `loopCols` directly. -/
def candidateSeq {R : Type} (f : Function) (try_candidate : ℤ → R × ℚ)
    (try_candidate_xtr : ℤ → ℤ → R × ℚ) : List (ℤ × R × ℚ) :=
  if f.sidx2 then
    if f.extruded = 0 then
      f.ids.map (fun id => (id - 1, try_candidate (id - 1)))
    else
      f.ids.map (fun id =>
        (id, try_candidate_xtr (decodeLayered id f.n_layers).1
               (decodeLayered id f.n_layers).2))
  else if f.extruded = 0 then
    (intRange f.n_cols).map (fun c => (c, try_candidate c))
  else
    []

/-- Two search states that agree on everything the caller can observe
(result variable, best distance, both output buffers), ignoring only the
ghost invocation counter. -/
def sameCore {R : Type} (s t : LocState R) : Prop :=
  s.cell = t.cell ∧ s.ref_cell_dist_l1 = t.ref_cell_dist_l1
    ∧ s.found_ref_coords = t.found_ref_coords
    ∧ s.found_ref_cell_dist_l1 = t.found_ref_cell_dist_l1

/-! Case analysis of the acceptance-policy step: the four branches of
lines 54-70. -/

theorem tryCand_exact {R : Type} {tolerance : ℚ} {s : LocState R} {cand : ℤ}
    {res : R × ℚ} (h : res.2 ≤ 0) :
    tryCand tolerance s cand res
      = ({ s with ncalls := s.ncalls + 1
                  cell := cand
                  found_ref_coords := some res.1
                  found_ref_cell_dist_l1 := some res.2 }, true) := by
  simp [tryCand, h]

theorem tryCand_accept {R : Type} {tolerance : ℚ} {s : LocState R} {cand : ℤ}
    {res : R × ℚ} (h0 : ¬ res.2 ≤ 0) (h1 : res.2 < s.ref_cell_dist_l1)
    (h2 : res.2 < tolerance) :
    tryCand tolerance s cand res
      = ({ s with ncalls := s.ncalls + 1
                  ref_cell_dist_l1 := res.2
                  cell := cand
                  found_ref_coords := some res.1
                  found_ref_cell_dist_l1 := some res.2 }, false) := by
  simp [tryCand, h0, h1, h2]

theorem tryCand_update {R : Type} {tolerance : ℚ} {s : LocState R} {cand : ℤ}
    {res : R × ℚ} (h0 : ¬ res.2 ≤ 0) (h1 : res.2 < s.ref_cell_dist_l1)
    (h2 : ¬ res.2 < tolerance) :
    tryCand tolerance s cand res
      = ({ s with ncalls := s.ncalls + 1, ref_cell_dist_l1 := res.2 }, false) := by
  simp [tryCand, h0, h1, h2]

theorem tryCand_skip {R : Type} {tolerance : ℚ} {s : LocState R} {cand : ℤ}
    {res : R × ℚ} (h0 : ¬ res.2 ≤ 0) (h1 : ¬ res.2 < s.ref_cell_dist_l1) :
    tryCand tolerance s cand res = ({ s with ncalls := s.ncalls + 1 }, false) := by
  simp [tryCand, h0, h1]

theorem tryCand_ncalls {R : Type} (tolerance : ℚ) (s : LocState R) (cand : ℤ)
    (res : R × ℚ) :
    (tryCand tolerance s cand res).1.ncalls = s.ncalls + 1 := by
  unfold tryCand
  dsimp only
  split_ifs <;> rfl

theorem tryCand_pos_snd {R : Type} (tolerance : ℚ) (s : LocState R) (cand : ℤ)
    {res : R × ℚ} (h : 0 < res.2) :
    (tryCand tolerance s cand res).2 = false := by
  unfold tryCand
  dsimp only
  split_ifs with h0 h1 h2
  · exact absurd h (by simpa using h0)
  all_goals rfl

theorem runCands_cons_noBreak {R : Type} {tolerance : ℚ} {s : LocState R}
    {x : ℤ × R × ℚ} (xs : List (ℤ × R × ℚ))
    (h : (tryCand tolerance s x.1 x.2).2 = false) :
    runCands tolerance (x :: xs) s
      = runCands tolerance xs (tryCand tolerance s x.1 x.2).1 := by
  simp [runCands, h]

theorem runCands_cons_break {R : Type} {tolerance : ℚ} {s : LocState R}
    {x : ℤ × R × ℚ} (xs : List (ℤ × R × ℚ))
    (h : (tryCand tolerance s x.1 x.2).2 = true) :
    runCands tolerance (x :: xs) s = tryCand tolerance s x.1 x.2 := by
  simp [runCands, h]

/-! Bridges: each concrete loop of the source is the shared acceptance
policy `runCands` run over the corresponding candidate sequence. -/

theorem loopIndexedFlat_eq_runCands {R : Type} (tolerance : ℚ)
    (test : ℤ → R × ℚ) (ids : List ℤ) (s : LocState R) :
    loopIndexedFlat tolerance test ids s
      = runCands tolerance (ids.map fun id => (id - 1, test (id - 1))) s := by
  induction ids generalizing s with
  | nil => rfl
  | cons id rest ih =>
    simp only [loopIndexedFlat, List.map_cons, runCands]
    exact if_congr Iff.rfl rfl (ih _)

theorem loopIndexedXtr_eq_runCands {R : Type} (tolerance : ℚ)
    (testx : ℤ → ℤ → R × ℚ) (n_layers : ℤ) (ids : List ℤ) (s : LocState R) :
    loopIndexedXtr tolerance testx n_layers ids s
      = runCands tolerance
          (ids.map fun id =>
            (id, testx (decodeLayered id n_layers).1 (decodeLayered id n_layers).2)) s := by
  induction ids generalizing s with
  | nil => rfl
  | cons id rest ih =>
    simp only [loopIndexedXtr, List.map_cons, runCands]
    exact if_congr Iff.rfl rfl (ih _)

theorem loopExhaustiveFlat_eq_runCands {R : Type} (tolerance : ℚ)
    (test : ℤ → R × ℚ) (cs : List ℤ) (s : LocState R) :
    loopExhaustiveFlat tolerance test cs s
      = runCands tolerance (cs.map fun c => (c, test c)) s := by
  induction cs generalizing s with
  | nil => rfl
  | cons c rest ih =>
    simp only [loopExhaustiveFlat, List.map_cons, runCands]
    exact if_congr Iff.rfl rfl (ih _)

theorem loopLayers_eq_runCands {R : Type} (tolerance : ℚ)
    (testx : ℤ → ℤ → R × ℚ) (c : ℤ) (ls : List ℤ) (s : LocState R) :
    loopLayers tolerance testx c ls s
      = runCands tolerance (ls.map fun l => (l, testx c l)) s := by
  induction ls generalizing s with
  | nil => rfl
  | cons l rest ih =>
    simp only [loopLayers, List.map_cons, runCands]
    exact if_congr Iff.rfl rfl (ih _)

theorem mem_intRange {n x : ℤ} : x ∈ intRange n ↔ 0 ≤ x ∧ x < n := by
  constructor
  · intro h
    simp only [intRange, List.mem_map, List.mem_range] at h
    obtain ⟨k, hk, rfl⟩ := h
    omega
  · intro h
    simp only [intRange, List.mem_map, List.mem_range]
    exact ⟨x.toNat, by omega, by omega⟩

theorem intRange_nonempty_pos {n : ℤ} {x : ℤ} (h : x ∈ intRange n) : 0 < n := by
  have := mem_intRange.mp h
  omega

theorem runCands_append {R : Type} (tolerance : ℚ) (a b : List (ℤ × R × ℚ))
    (s : LocState R) :
    runCands tolerance (a ++ b) s
      = if (runCands tolerance a s).2 then runCands tolerance a s
        else runCands tolerance b (runCands tolerance a s).1 := by
  induction a generalizing s with
  | nil => simp [runCands]
  | cons x rest ih =>
    by_cases hp : (tryCand tolerance s x.1 x.2).2
    · simp [runCands, hp]
    · simp [runCands, hp, ih]

/-- For the three single-loop variants, locate_cell is the shared
acceptance policy run over the candidate sequence. -/
theorem locate_cell_eq_runCands {R : Type} (f : Function) (tolerance : ℚ)
    (test : ℤ → R × ℚ) (testx : ℤ → ℤ → R × ℚ)
    (hvar : f.sidx2 = true ∨ f.extruded = 0) :
    locate_cell f tolerance test testx
      = (runCands tolerance (candidateSeq f test testx) initState).1 := by
  by_cases hs : f.sidx2 = true
  · by_cases he : f.extruded = 0
    · simp [locate_cell, locate_indexed, candidateSeq, hs, he,
        loopIndexedFlat_eq_runCands]
    · simp [locate_cell, locate_indexed, candidateSeq, hs, he,
        loopIndexedXtr_eq_runCands]
  · have he : f.extruded = 0 := hvar.resolve_left hs
    simp [locate_cell, candidateSeq, hs, he, loopExhaustiveFlat_eq_runCands]

/-- If every candidate has a strictly positive distance that is at least
the tolerance, the loop never accepts: the result variable and both
output buffers are untouched and the loop runs to the end. -/
theorem runCands_noAccept {R : Type} (tolerance : ℚ) :
    ∀ (cands : List (ℤ × R × ℚ)) (s : LocState R),
    (∀ x ∈ cands, 0 < x.2.2 ∧ tolerance ≤ x.2.2) →
    (runCands tolerance cands s).1.cell = s.cell
      ∧ (runCands tolerance cands s).1.found_ref_coords = s.found_ref_coords
      ∧ (runCands tolerance cands s).1.found_ref_cell_dist_l1
          = s.found_ref_cell_dist_l1
      ∧ (runCands tolerance cands s).2 = false := by
  intro cands
  induction cands with
  | nil => intro s _; simp [runCands]
  | cons x rest ih =>
    intro s h
    obtain ⟨hx1, hx2⟩ := h x (List.mem_cons_self _ _)
    have h' : ∀ y ∈ rest, 0 < y.2.2 ∧ tolerance ≤ y.2.2 :=
      fun y hy => h y (List.mem_cons_of_mem _ hy)
    have h0 : ¬ x.2.2 ≤ 0 := not_le.mpr hx1
    have hnt : ¬ x.2.2 < tolerance := not_lt.mpr hx2
    rw [runCands_cons_noBreak rest (tryCand_pos_snd tolerance s x.1 hx1)]
    by_cases h1 : x.2.2 < s.ref_cell_dist_l1
    · rw [tryCand_update h0 h1 hnt]
      simpa using ih _ h'
    · rw [tryCand_skip h0 h1]
      simpa using ih _ h'

/-- If every candidate has a strictly positive distance that does not
improve on the current best, the whole loop is a no-op except for the
invocation counter. -/
theorem runCands_stable {R : Type} (tolerance : ℚ) :
    ∀ (cands : List (ℤ × R × ℚ)) (s : LocState R),
    (∀ x ∈ cands, 0 < x.2.2 ∧ s.ref_cell_dist_l1 ≤ x.2.2) →
    (runCands tolerance cands s).1 = { s with ncalls := s.ncalls + cands.length }
      ∧ (runCands tolerance cands s).2 = false := by
  intro cands
  induction cands with
  | nil =>
    intro s _
    constructor
    · simp [runCands]
    · simp [runCands]
  | cons x rest ih =>
    intro s h
    obtain ⟨hx1, hx2⟩ := h x (List.mem_cons_self _ _)
    have h0 : ¬ x.2.2 ≤ 0 := not_le.mpr hx1
    have h1 : ¬ x.2.2 < s.ref_cell_dist_l1 := not_lt.mpr hx2
    rw [runCands_cons_noBreak rest (tryCand_pos_snd tolerance s x.1 hx1)]
    rw [tryCand_skip h0 h1]
    have h' : ∀ y ∈ rest, 0 < y.2.2
        ∧ ({ s with ncalls := s.ncalls + 1 } : LocState R).ref_cell_dist_l1 ≤ y.2.2 := by
      intro y hy
      simpa using h y (List.mem_cons_of_mem _ hy)
    obtain ⟨ih1, ih2⟩ := ih { s with ncalls := s.ncalls + 1 } h'
    refine ⟨?_, ih2⟩
    rw [ih1]
    simp [Nat.add_assoc, List.length_cons]
    omega

/-- If all distances are strictly positive, the minimum distance m is
attained, m beats the incoming best distance and m is under the
tolerance, then the loop ends with some minimising candidate recorded:
its report value in `cell`, its scratch coordinates in the output
buffer, and distance m recorded. -/
theorem runCands_min {R : Type} (tolerance m : ℚ) :
    ∀ (cands : List (ℤ × R × ℚ)) (s : LocState R),
    (∀ x ∈ cands, 0 < x.2.2) →
    (∀ x ∈ cands, m ≤ x.2.2) →
    (∃ x ∈ cands, x.2.2 = m) →
    m < s.ref_cell_dist_l1 →
    m < tolerance →
    ∃ x ∈ cands, x.2.2 = m
      ∧ (runCands tolerance cands s).1.cell = x.1
      ∧ (runCands tolerance cands s).1.found_ref_coords = some x.2.1
      ∧ (runCands tolerance cands s).1.found_ref_cell_dist_l1 = some m := by
  intro cands
  induction cands with
  | nil =>
    intro s _ _ hmem _ _
    obtain ⟨x, hx, -⟩ := hmem
    exact absurd hx (List.not_mem_nil x)
  | cons x rest ih =>
    intro s hpos hmin hmem hms hmt
    have hx1 : 0 < x.2.2 := hpos x (List.mem_cons_self _ _)
    rw [runCands_cons_noBreak rest (tryCand_pos_snd tolerance s x.1 hx1)]
    have h0 : ¬ x.2.2 ≤ 0 := not_le.mpr hx1
    by_cases hxm : x.2.2 = m
    · -- the head is a first minimiser: accepted now, stable afterwards
      have h1 : x.2.2 < s.ref_cell_dist_l1 := by rw [hxm]; exact hms
      have h2 : x.2.2 < tolerance := by rw [hxm]; exact hmt
      rw [tryCand_accept h0 h1 h2]
      obtain ⟨hst, -⟩ := runCands_stable tolerance rest
        { s with ncalls := s.ncalls + 1
                 ref_cell_dist_l1 := x.2.2
                 cell := x.1
                 found_ref_coords := some x.2.1
                 found_ref_cell_dist_l1 := some x.2.2 }
        (by
          intro y hy
          refine ⟨hpos y (List.mem_cons_of_mem _ hy), ?_⟩
          simpa [hxm] using hmin y (List.mem_cons_of_mem _ hy))
      refine ⟨x, List.mem_cons_self _ _, hxm, ?_, ?_, ?_⟩
      · rw [hst]
      · rw [hst]
      · rw [hst]; simp [hxm]
    · -- the head is not a minimiser; whatever it does, the minimum still
      -- beats the new best distance and a minimiser remains in the tail
      have hxm' : m < x.2.2 := lt_of_le_of_ne (hmin x (List.mem_cons_self _ _))
        (fun h => hxm h.symm)
      have hmem' : ∃ y ∈ rest, y.2.2 = m := by
        obtain ⟨y, hy, hym⟩ := hmem
        rcases List.mem_cons.mp hy with rfl | hy'
        · exact absurd hym hxm
        · exact ⟨y, hy', hym⟩
      have hpos' : ∀ y ∈ rest, 0 < y.2.2 :=
        fun y hy => hpos y (List.mem_cons_of_mem _ hy)
      have hmin' : ∀ y ∈ rest, m ≤ y.2.2 :=
        fun y hy => hmin y (List.mem_cons_of_mem _ hy)
      by_cases h1 : x.2.2 < s.ref_cell_dist_l1
      · by_cases h2 : x.2.2 < tolerance
        · have hstep : (tryCand tolerance s x.1 x.2).1
              = { s with ncalls := s.ncalls + 1
                         ref_cell_dist_l1 := x.2.2
                         cell := x.1
                         found_ref_coords := some x.2.1
                         found_ref_cell_dist_l1 := some x.2.2 } := by
            rw [tryCand_accept h0 h1 h2]
          rw [hstep]
          obtain ⟨y, hy, hym, hc, hf, hd⟩ :=
            ih { s with ncalls := s.ncalls + 1
                        ref_cell_dist_l1 := x.2.2
                        cell := x.1
                        found_ref_coords := some x.2.1
                        found_ref_cell_dist_l1 := some x.2.2 }
              hpos' hmin' hmem' (by simpa using hxm') hmt
          exact ⟨y, List.mem_cons_of_mem _ hy, hym, hc, hf, hd⟩
        · have hstep : (tryCand tolerance s x.1 x.2).1
              = { s with ncalls := s.ncalls + 1, ref_cell_dist_l1 := x.2.2 } := by
            rw [tryCand_update h0 h1 h2]
          rw [hstep]
          obtain ⟨y, hy, hym, hc, hf, hd⟩ :=
            ih { s with ncalls := s.ncalls + 1, ref_cell_dist_l1 := x.2.2 }
              hpos' hmin' hmem' (by simpa using hxm') hmt
          exact ⟨y, List.mem_cons_of_mem _ hy, hym, hc, hf, hd⟩
      · have hstep : (tryCand tolerance s x.1 x.2).1
            = { s with ncalls := s.ncalls + 1 } := by
          rw [tryCand_skip h0 h1]
        rw [hstep]
        obtain ⟨y, hy, hym, hc, hf, hd⟩ :=
          ih { s with ncalls := s.ncalls + 1 }
            hpos' hmin' hmem' (by simpa using hms) hmt
        exact ⟨y, List.mem_cons_of_mem _ hy, hym, hc, hf, hd⟩

/-- If every candidate before x has strictly positive distance and x has
distance at most 0, then the loop breaks exactly at x: it records x and
has invoked the containment test once per candidate up to and including
x, never on any later candidate. -/
theorem runCands_firstHit {R : Type} (tolerance : ℚ) :
    ∀ (pre : List (ℤ × R × ℚ)) (x : ℤ × R × ℚ) (post : List (ℤ × R × ℚ))
      (s : LocState R),
    (∀ y ∈ pre, 0 < y.2.2) → x.2.2 ≤ 0 →
    (runCands tolerance (pre ++ x :: post) s).1.cell = x.1
      ∧ (runCands tolerance (pre ++ x :: post) s).1.found_ref_coords = some x.2.1
      ∧ (runCands tolerance (pre ++ x :: post) s).1.found_ref_cell_dist_l1
          = some x.2.2
      ∧ (runCands tolerance (pre ++ x :: post) s).1.ncalls
          = s.ncalls + pre.length + 1
      ∧ (runCands tolerance (pre ++ x :: post) s).2 = true := by
  intro pre
  induction pre with
  | nil =>
    intro x post s _ hx
    have hb : (tryCand tolerance s x.1 x.2).2 = true := by
      rw [tryCand_exact hx]
    rw [List.nil_append, runCands_cons_break post hb, tryCand_exact hx]
    simp
  | cons y pre' ih =>
    intro x post s hpre hx
    have hy1 : 0 < y.2.2 := (hpre y (List.mem_cons_self _ _))
    have hpre' : ∀ z ∈ pre', 0 < z.2.2 :=
      fun z hz => hpre z (List.mem_cons_of_mem _ hz)
    rw [List.cons_append,
      runCands_cons_noBreak (pre' ++ x :: post) (tryCand_pos_snd tolerance s y.1 hy1)]
    obtain ⟨hc, hf, hd, hn, hb⟩ := ih x post (tryCand tolerance s y.1 y.2).1 hpre' hx
    refine ⟨hc, hf, hd, ?_, hb⟩
    rw [hn, tryCand_ncalls]
    simp [List.length_cons]
    omega

/-- Step preservation of the loop invariant: unless the search has
broken out, either nothing was accepted yet (`cell = -1`), or a
tentative acceptance happened, in which case the best distance is below
the tolerance (and the tolerance is positive). -/
theorem tryCand_J {R : Type} {tolerance : ℚ} {s : LocState R} {cand : ℤ}
    {res : R × ℚ} (hb : (tryCand tolerance s cand res).2 = false)
    (hJ : s.cell = -1 ∨ (s.ref_cell_dist_l1 < tolerance ∧ 0 < tolerance)) :
    (tryCand tolerance s cand res).1.cell = -1
      ∨ ((tryCand tolerance s cand res).1.ref_cell_dist_l1 < tolerance
          ∧ 0 < tolerance) := by
  by_cases h0 : res.2 ≤ 0
  · rw [tryCand_exact h0] at hb
    simp at hb
  · by_cases h1 : res.2 < s.ref_cell_dist_l1
    · by_cases h2 : res.2 < tolerance
      · rw [tryCand_accept h0 h1 h2]
        exact Or.inr ⟨by simpa using h2, lt_trans (not_le.mp h0) h2⟩
      · rw [tryCand_update h0 h1 h2]
        rcases hJ with hc | ⟨hr, ht⟩
        · exact Or.inl (by simpa using hc)
        · exact absurd (lt_trans h1 hr) h2
    · rw [tryCand_skip h0 h1]
      rcases hJ with hc | ⟨hr, ht⟩
      · exact Or.inl (by simpa using hc)
      · exact Or.inr ⟨by simpa using hr, ht⟩

/-- Loop preservation of the invariant of `tryCand_J`. -/
theorem runCands_J {R : Type} (tolerance : ℚ) :
    ∀ (cands : List (ℤ × R × ℚ)) (s : LocState R),
    (runCands tolerance cands s).2 = false →
    (s.cell = -1 ∨ (s.ref_cell_dist_l1 < tolerance ∧ 0 < tolerance)) →
    (runCands tolerance cands s).1.cell = -1
      ∨ ((runCands tolerance cands s).1.ref_cell_dist_l1 < tolerance
          ∧ 0 < tolerance) := by
  intro cands
  induction cands with
  | nil => intro s _ hJ; simpa [runCands] using hJ
  | cons x rest ih =>
    intro s hb hJ
    by_cases hp : (tryCand tolerance s x.1 x.2).2
    · rw [runCands_cons_break rest hp] at hb
      exact absurd hb (by simp [hp])
    · have hp' : (tryCand tolerance s x.1 x.2).2 = false := by
        simpa using hp
      rw [runCands_cons_noBreak rest hp'] at hb ⊢
      exact ih _ hb (tryCand_J hp' hJ)

/-- The acceptance-policy step treats the ghost invocation counter as
inert: states agreeing on the observable fields step to states agreeing
on the observable fields, with the same break decision. -/
theorem tryCand_sameCore {R : Type} (tolerance : ℚ) {s t : LocState R}
    (cand : ℤ) (res : R × ℚ) (h : sameCore s t) :
    sameCore (tryCand tolerance s cand res).1 (tryCand tolerance t cand res).1
      ∧ (tryCand tolerance s cand res).2 = (tryCand tolerance t cand res).2 := by
  obtain ⟨h1, h2, h3, h4⟩ := h
  by_cases h0 : res.2 ≤ 0
  · rw [tryCand_exact h0, tryCand_exact h0]
    exact ⟨⟨rfl, by simpa using h2, rfl, rfl⟩, rfl⟩
  · by_cases hlt : res.2 < s.ref_cell_dist_l1
    · have hlt' : res.2 < t.ref_cell_dist_l1 := h2 ▸ hlt
      by_cases ht : res.2 < tolerance
      · rw [tryCand_accept h0 hlt ht, tryCand_accept h0 hlt' ht]
        exact ⟨⟨rfl, rfl, rfl, rfl⟩, rfl⟩
      · rw [tryCand_update h0 hlt ht, tryCand_update h0 hlt' ht]
        exact ⟨⟨by simpa using h1, rfl, by simpa using h3, by simpa using h4⟩, rfl⟩
    · have hlt' : ¬ res.2 < t.ref_cell_dist_l1 := h2 ▸ hlt
      rw [tryCand_skip h0 hlt, tryCand_skip h0 hlt']
      exact ⟨⟨by simpa using h1, by simpa using h2, by simpa using h3,
        by simpa using h4⟩, rfl⟩

/-- The whole loop treats the ghost invocation counter as inert. -/
theorem runCands_sameCore {R : Type} (tolerance : ℚ) :
    ∀ (cands : List (ℤ × R × ℚ)) (s t : LocState R), sameCore s t →
    sameCore (runCands tolerance cands s).1 (runCands tolerance cands t).1
      ∧ (runCands tolerance cands s).2 = (runCands tolerance cands t).2 := by
  intro cands
  induction cands with
  | nil => intro s t h; simpa [runCands] using h
  | cons x rest ih =>
    intro s t h
    obtain ⟨hcore, hsnd⟩ := tryCand_sameCore tolerance x.1 x.2 h
    by_cases hp : (tryCand tolerance s x.1 x.2).2
    · have hq : (tryCand tolerance t x.1 x.2).2 = true := by rw [← hsnd]; exact hp
      rw [runCands_cons_break rest hp, runCands_cons_break rest hq]
      exact ⟨hcore, hsnd⟩
    · have hp' : (tryCand tolerance s x.1 x.2).2 = false := by simpa using hp
      have hq' : (tryCand tolerance t x.1 x.2).2 = false := by rw [← hsnd]; exact hp'
      rw [runCands_cons_noBreak rest hp', runCands_cons_noBreak rest hq']
      exact ih _ _ hcore

/-- Frame invariant: if every report value is non-negative, then an
unaccepted state stays unaccepted with untouched output buffers, the
result variable only ever holds -1 or a report value, and the buffers
are written only together with the result variable. -/
theorem runCands_inv {R : Type} (tolerance : ℚ) :
    ∀ (cands : List (ℤ × R × ℚ)) (s : LocState R),
    (∀ x ∈ cands, 0 ≤ x.1) →
    (s.cell = -1 → s.found_ref_coords = none ∧ s.found_ref_cell_dist_l1 = none) →
    (s.cell = -1 ∨ 0 ≤ s.cell) →
    (((runCands tolerance cands s).1.cell = -1 →
        (runCands tolerance cands s).1.found_ref_coords = none
          ∧ (runCands tolerance cands s).1.found_ref_cell_dist_l1 = none)
      ∧ ((runCands tolerance cands s).1.cell = -1
          ∨ 0 ≤ (runCands tolerance cands s).1.cell)
      ∧ ((runCands tolerance cands s).1.cell = s.cell
          ∨ (runCands tolerance cands s).1.cell ∈ cands.map Prod.fst)) := by
  intro cands
  induction cands with
  | nil => intro s _ h1 h2; exact ⟨by simpa [runCands] using h1,
      by simpa [runCands] using h2, Or.inl (by simp [runCands])⟩
  | cons x rest ih =>
    intro s hrep h1 h2
    have hx : 0 ≤ x.1 := hrep x (List.mem_cons_self _ _)
    have hrep' : ∀ y ∈ rest, 0 ≤ y.1 :=
      fun y hy => hrep y (List.mem_cons_of_mem _ hy)
    by_cases h0 : x.2.2 ≤ 0
    · have hb : (tryCand tolerance s x.1 x.2).2 = true := by
        rw [tryCand_exact h0]
      rw [runCands_cons_break rest hb, tryCand_exact h0]
      refine ⟨?_, ?_, ?_⟩
      · intro hc
        simp at hc
        omega
      · right; simpa using hx
      · right
        simp
    · by_cases hlt : x.2.2 < s.ref_cell_dist_l1
      · by_cases ht : x.2.2 < tolerance
        · have hstep : (tryCand tolerance s x.1 x.2).1
              = { s with ncalls := s.ncalls + 1
                         ref_cell_dist_l1 := x.2.2
                         cell := x.1
                         found_ref_coords := some x.2.1
                         found_ref_cell_dist_l1 := some x.2.2 } := by
            rw [tryCand_accept h0 hlt ht]
          rw [runCands_cons_noBreak rest (by rw [tryCand_accept h0 hlt ht]), hstep]
          obtain ⟨g1, g2, g3⟩ :=
            ih { s with ncalls := s.ncalls + 1
                        ref_cell_dist_l1 := x.2.2
                        cell := x.1
                        found_ref_coords := some x.2.1
                        found_ref_cell_dist_l1 := some x.2.2 }
              hrep' (by intro hc; simp at hc; omega) (Or.inr (by simpa using hx))
          refine ⟨g1, g2, ?_⟩
          rcases g3 with g3 | g3
          · right; rw [g3]; simp
          · right; simp only [List.map_cons]; exact List.mem_cons_of_mem _ g3
        · have hstep : (tryCand tolerance s x.1 x.2).1
              = { s with ncalls := s.ncalls + 1, ref_cell_dist_l1 := x.2.2 } := by
            rw [tryCand_update h0 hlt ht]
          rw [runCands_cons_noBreak rest (by rw [tryCand_update h0 hlt ht]), hstep]
          obtain ⟨g1, g2, g3⟩ :=
            ih { s with ncalls := s.ncalls + 1, ref_cell_dist_l1 := x.2.2 }
              hrep' (by intro hc; exact h1 (by simpa using hc))
              (by rcases h2 with h2 | h2
                  · exact Or.inl (by simpa using h2)
                  · exact Or.inr (by simpa using h2))
          refine ⟨g1, g2, ?_⟩
          rcases g3 with g3 | g3
          · left; rw [g3]
          · right; simp only [List.map_cons]; exact List.mem_cons_of_mem _ g3
      · have hstep : (tryCand tolerance s x.1 x.2).1
            = { s with ncalls := s.ncalls + 1 } := by
          rw [tryCand_skip h0 hlt]
        rw [runCands_cons_noBreak rest (by rw [tryCand_skip h0 hlt]), hstep]
        obtain ⟨g1, g2, g3⟩ :=
          ih { s with ncalls := s.ncalls + 1 }
            hrep' (by intro hc; exact h1 (by simpa using hc))
            (by rcases h2 with h2 | h2
                · exact Or.inl (by simpa using h2)
                · exact Or.inr (by simpa using h2))
        refine ⟨g1, g2, ?_⟩
        rcases g3 with g3 | g3
        · left; rw [g3]
        · right; simp only [List.map_cons]; exact List.mem_cons_of_mem _ g3

/-- Exhaustive layered search: if every (column, layer) candidate has a
strictly positive distance at least the tolerance, no column accepts, so
the outer loop runs all columns and the state keeps `cell = -1` with
untouched output buffers. -/
theorem loopCols_noAccept {R : Type} (tolerance : ℚ) (testx : ℤ → ℤ → R × ℚ)
    (n_layers : ℤ) :
    ∀ (cols : List ℤ) (s : LocState R),
    (∀ c ∈ cols, ∀ l ∈ intRange n_layers,
      0 < (testx c l).2 ∧ tolerance ≤ (testx c l).2) →
    s.cell = -1 →
    (loopCols tolerance testx n_layers cols s).cell = -1
      ∧ (loopCols tolerance testx n_layers cols s).found_ref_coords
          = s.found_ref_coords
      ∧ (loopCols tolerance testx n_layers cols s).found_ref_cell_dist_l1
          = s.found_ref_cell_dist_l1 := by
  intro cols
  induction cols with
  | nil => intro s _ hs; exact ⟨by simpa [loopCols] using hs, by simp [loopCols],
      by simp [loopCols]⟩
  | cons c rest ih =>
    intro s h hs
    have hcands : ∀ x ∈ (intRange n_layers).map (fun l => (l, testx c l)),
        0 < x.2.2 ∧ tolerance ≤ x.2.2 := by
      intro x hx
      obtain ⟨l, hl, rfl⟩ := List.mem_map.mp hx
      exact h c (List.mem_cons_self _ _) l hl
    have hinner := runCands_noAccept tolerance
      ((intRange n_layers).map (fun l => (l, testx c l))) s hcands
    have ht : (loopLayers tolerance testx c (intRange n_layers) s).1.cell = -1 := by
      rw [loopLayers_eq_runCands]
      rw [hinner.1]
      exact hs
    have htf : (loopLayers tolerance testx c (intRange n_layers) s).1.found_ref_coords
        = s.found_ref_coords := by
      rw [loopLayers_eq_runCands]; exact hinner.2.1
    have htd : (loopLayers tolerance testx c
        (intRange n_layers) s).1.found_ref_cell_dist_l1
        = s.found_ref_cell_dist_l1 := by
      rw [loopLayers_eq_runCands]; exact hinner.2.2.1
    simp only [loopCols]
    rw [if_neg (by simp [ht])]
    have h' : ∀ c₂ ∈ rest, ∀ l ∈ intRange n_layers,
        0 < (testx c₂ l).2 ∧ tolerance ≤ (testx c₂ l).2 :=
      fun c₂ hc₂ => h c₂ (List.mem_cons_of_mem _ hc₂)
    obtain ⟨r1, r2, r3⟩ := ih _ h' ht
    exact ⟨r1, by rw [r2, htf], by rw [r3, htd]⟩

/-- Exhaustive layered search frame invariant: starting unaccepted with
untouched output buffers and non-negative column indices, a run that
ends with `cell = -1` has touched neither output buffer. -/
theorem loopCols_inv {R : Type} (tolerance : ℚ) (testx : ℤ → ℤ → R × ℚ)
    (n_layers : ℤ) :
    ∀ (cols : List ℤ) (s : LocState R),
    (∀ c ∈ cols, 0 ≤ c) →
    s.cell = -1 → s.found_ref_coords = none → s.found_ref_cell_dist_l1 = none →
    ((loopCols tolerance testx n_layers cols s).cell = -1 →
      (loopCols tolerance testx n_layers cols s).found_ref_coords = none
        ∧ (loopCols tolerance testx n_layers cols s).found_ref_cell_dist_l1
            = none) := by
  intro cols
  induction cols with
  | nil => intro s _ hs hf hd _; exact ⟨by simpa [loopCols] using hf,
      by simpa [loopCols] using hd⟩
  | cons c rest ih =>
    intro s h hs hf hd
    have hrep : ∀ x ∈ (intRange n_layers).map (fun l => (l, testx c l)), 0 ≤ x.1 := by
      intro x hx
      obtain ⟨l, hl, rfl⟩ := List.mem_map.mp hx
      exact (mem_intRange.mp hl).1
    obtain ⟨g1, g2, g3⟩ := runCands_inv tolerance
      ((intRange n_layers).map (fun l => (l, testx c l))) s hrep
      (fun _ => ⟨hf, hd⟩) (Or.inl hs)
    have hbr : loopLayers tolerance testx c (intRange n_layers) s
        = runCands tolerance ((intRange n_layers).map (fun l => (l, testx c l))) s :=
      loopLayers_eq_runCands tolerance testx c (intRange n_layers) s
    by_cases hc : (loopLayers tolerance testx c (intRange n_layers) s).1.cell = -1
    · simp only [loopCols]
      rw [if_neg (by simp [hc])]
      have hnones := g1 (by rw [← hbr]; exact hc)
      exact ih _ (fun c₂ hc₂ => h c₂ (List.mem_cons_of_mem _ hc₂)) hc
        (by rw [hbr]; exact hnones.1) (by rw [hbr]; exact hnones.2)
    · -- a column accepted: the re-encoded global id is non-negative,
      -- so the conclusion holds vacuously
      simp only [loopCols]
      rw [if_pos hc]
      intro habs
      exfalso
      have hmem : (loopLayers tolerance testx c (intRange n_layers) s).1.cell
          ∈ intRange n_layers := by
        rcases g3 with g3 | g3
        · rw [← hbr] at g3
          exact absurd (g3.trans hs) hc
        · rw [← hbr] at g3
          rw [List.map_map] at g3
          simpa using g3
      obtain ⟨hl0, hlL⟩ := mem_intRange.mp hmem
      have hc0 : 0 ≤ c := h c (List.mem_cons_self _ _)
      have henc : 0 ≤ encodeLayered c
          (loopLayers tolerance testx c (intRange n_layers) s).1.cell n_layers := by
        unfold encodeLayered
        have : 0 ≤ c * n_layers := mul_nonneg hc0 (by omega)
        linarith
      simp only [encodeLayered] at habs henc
      rw [habs] at henc
      norm_num at henc

/-- The result variable either still holds its incoming value or holds
one of the report values of the candidate sequence. -/
theorem runCands_cell_cases {R : Type} (tolerance : ℚ) :
    ∀ (cands : List (ℤ × R × ℚ)) (s : LocState R),
    (runCands tolerance cands s).1.cell = s.cell
      ∨ (runCands tolerance cands s).1.cell ∈ cands.map Prod.fst := by
  intro cands
  induction cands with
  | nil => intro s; left; simp [runCands]
  | cons x rest ih =>
    intro s
    by_cases h0 : x.2.2 ≤ 0
    · rw [runCands_cons_break rest (by rw [tryCand_exact h0]), tryCand_exact h0]
      right; simp
    · by_cases hlt : x.2.2 < s.ref_cell_dist_l1
      · by_cases ht : x.2.2 < tolerance
        · rw [runCands_cons_noBreak rest (by rw [tryCand_accept h0 hlt ht]),
            (by rw [tryCand_accept h0 hlt ht] :
              (tryCand tolerance s x.1 x.2).1
                = { s with ncalls := s.ncalls + 1
                           ref_cell_dist_l1 := x.2.2
                           cell := x.1
                           found_ref_coords := some x.2.1
                           found_ref_cell_dist_l1 := some x.2.2 })]
          rcases ih { s with ncalls := s.ncalls + 1
                             ref_cell_dist_l1 := x.2.2
                             cell := x.1
                             found_ref_coords := some x.2.1
                             found_ref_cell_dist_l1 := some x.2.2 } with h | h
          · right; rw [h]; simp
          · right; simp only [List.map_cons]; exact List.mem_cons_of_mem _ h
        · rw [runCands_cons_noBreak rest (by rw [tryCand_update h0 hlt ht]),
            (by rw [tryCand_update h0 hlt ht] :
              (tryCand tolerance s x.1 x.2).1
                = { s with ncalls := s.ncalls + 1, ref_cell_dist_l1 := x.2.2 })]
          rcases ih { s with ncalls := s.ncalls + 1, ref_cell_dist_l1 := x.2.2 }
            with h | h
          · left; rw [h]
          · right; simp only [List.map_cons]; exact List.mem_cons_of_mem _ h
      · rw [runCands_cons_noBreak rest (by rw [tryCand_skip h0 hlt]),
          (by rw [tryCand_skip h0 hlt] :
            (tryCand tolerance s x.1 x.2).1 = { s with ncalls := s.ncalls + 1 })]
        rcases ih { s with ncalls := s.ncalls + 1 } with h | h
        · left; rw [h]
        · right; simp only [List.map_cons]; exact List.mem_cons_of_mem _ h

/-! Claim theorems. -/

/-- C1 as amended: in the two indexed variants and the exhaustive flat
variant, if the candidate sequence splits as pre ++ x :: post with every
candidate in pre at strictly positive distance and x at distance at most
0, then locate_cell returns the report value of x with the distance of x
recorded and the scratch coordinates of x copied into the output buffer,
and the containment test has been invoked exactly once per candidate up
to and including x, never on a later candidate.  (In the exhaustive
layered variant an earlier column with a tentative acceptance stops the
search before the exact hit is ever tested; see the counterexample.) -/
theorem first_exact_hit_single_loop {R : Type} (f : Function) (tolerance : ℚ)
    (test : ℤ → R × ℚ) (testx : ℤ → ℤ → R × ℚ)
    (pre post : List (ℤ × R × ℚ)) (x : ℤ × R × ℚ)
    (hvar : f.sidx2 = true ∨ f.extruded = 0)
    (hseq : candidateSeq f test testx = pre ++ x :: post)
    (hpre : ∀ y ∈ pre, 0 < y.2.2)
    (hx : x.2.2 ≤ 0) :
    (locate_cell f tolerance test testx).cell = x.1
    ∧ (locate_cell f tolerance test testx).found_ref_coords = some x.2.1
    ∧ (locate_cell f tolerance test testx).found_ref_cell_dist_l1 = some x.2.2
    ∧ (locate_cell f tolerance test testx).ncalls = pre.length + 1 := by
  rw [locate_cell_eq_runCands f tolerance test testx hvar, hseq]
  obtain ⟨hc, hf, hd, hn, -⟩ :=
    runCands_firstHit tolerance pre x post initState hpre hx
  refine ⟨hc, hf, hd, ?_⟩
  rw [hn]
  simp [initState]

/-- Witness for the amended C1: exhaustive flat search over two cells,
cell 0 at distance 1, cell 1 an exact hit at distance -2. -/
theorem first_exact_hit_single_loop_witness :
    ((Function.mk false 0 2 0 []).sidx2 = true
       ∨ (Function.mk false 0 2 0 []).extruded = 0)
    ∧ candidateSeq (Function.mk false 0 2 0 [])
        (fun c => ((), if c = 0 then (1 : ℚ) else -2)) (fun _ _ => ((), (5 : ℚ)))
        = [((0 : ℤ), (), (1 : ℚ))] ++ ((1 : ℤ), (), (-2 : ℚ)) :: []
    ∧ (∀ y ∈ [((0 : ℤ), Unit.unit, (1 : ℚ))], 0 < y.2.2)
    ∧ (((1 : ℤ), Unit.unit, (-2 : ℚ)).2.2 ≤ 0)
    ∧ ((locate_cell (Function.mk false 0 2 0 []) (1 : ℚ)
          (fun c => ((), if c = 0 then (1 : ℚ) else -2))
          (fun _ _ => ((), (5 : ℚ)))).cell = ((1 : ℤ), Unit.unit, (-2 : ℚ)).1
      ∧ (locate_cell (Function.mk false 0 2 0 []) (1 : ℚ)
          (fun c => ((), if c = 0 then (1 : ℚ) else -2))
          (fun _ _ => ((), (5 : ℚ)))).found_ref_coords
          = some ((1 : ℤ), Unit.unit, (-2 : ℚ)).2.1
      ∧ (locate_cell (Function.mk false 0 2 0 []) (1 : ℚ)
          (fun c => ((), if c = 0 then (1 : ℚ) else -2))
          (fun _ _ => ((), (5 : ℚ)))).found_ref_cell_dist_l1
          = some ((1 : ℤ), Unit.unit, (-2 : ℚ)).2.2
      ∧ (locate_cell (Function.mk false 0 2 0 []) (1 : ℚ)
          (fun c => ((), if c = 0 then (1 : ℚ) else -2))
          (fun _ _ => ((), (5 : ℚ)))).ncalls
          = [((0 : ℤ), Unit.unit, (1 : ℚ))].length + 1) :=
  ⟨by decide, by decide, by decide, by decide,
    first_exact_hit_single_loop (Function.mk false 0 2 0 []) 1
      (fun c => ((), if c = 0 then (1 : ℚ) else -2)) (fun _ _ => ((), (5 : ℚ)))
      [((0 : ℤ), Unit.unit, (1 : ℚ))] [] ((1 : ℤ), Unit.unit, (-2 : ℚ))
      (by decide) (by decide) (by decide) (by decide)⟩

/-- C1 counterexample: exhaustive layered search, two columns, one
layer, tolerance 1.  The candidate (column 1, layer 0) is an exact hit
(distance -1), yet the search returns cell 0 with positive recorded
distance 1/2 after a single containment-test call: the tentative
acceptance in column 0 stops the outer loop, so the first exact hit in
iteration order is not returned and the claimed property fails for the
exhaustive layered variant. -/
theorem layered_exhaustive_skips_exact_hit :
    ((1 : ℤ) ∈ intRange (Function.mk false 1 2 1 []).n_cols
      ∧ (0 : ℤ) ∈ intRange (Function.mk false 1 2 1 []).n_layers
      ∧ ((fun c (_ : ℤ) => ((), if c = 0 then (5 : ℚ) else -1)) (1 : ℤ) (0 : ℤ)).2 ≤ 0)
    ∧ (locate_cell (Function.mk false 1 2 1 []) (10 : ℚ) (fun _ => ((), (7 : ℚ)))
        (fun c _ => ((), if c = 0 then (5 : ℚ) else -1))).cell = 0
    ∧ (locate_cell (Function.mk false 1 2 1 []) (10 : ℚ) (fun _ => ((), (7 : ℚ)))
        (fun c _ => ((), if c = 0 then (5 : ℚ) else -1))).found_ref_cell_dist_l1
        = some 5
    ∧ (0 : ℚ) < 5
    ∧ (locate_cell (Function.mk false 1 2 1 []) (10 : ℚ) (fun _ => ((), (7 : ℚ)))
        (fun c _ => ((), if c = 0 then (5 : ℚ) else -1))).ncalls = 1 := by
  decide

/-- C2 as amended: in the two indexed variants and the exhaustive flat
variant, if every candidate distance is strictly positive, the minimum
distance m is attained and lies strictly under the (finite-double)
tolerance, then locate_cell returns a candidate attaining m, with
distance m recorded and that candidate's coordinates copied out.  (In
the exhaustive layered variant the outer loop stops at the first
accepting column, which need not contain the global minimum; see the
counterexample.) -/
theorem nearest_cell_single_loop {R : Type} (f : Function) (tolerance m : ℚ)
    (test : ℤ → R × ℚ) (testx : ℤ → ℤ → R × ℚ)
    (hvar : f.sidx2 = true ∨ f.extruded = 0)
    (hpos : ∀ x ∈ candidateSeq f test testx, 0 < x.2.2)
    (hmin : ∀ x ∈ candidateSeq f test testx, m ≤ x.2.2)
    (hmem : ∃ x ∈ candidateSeq f test testx, x.2.2 = m)
    (hmt : m < tolerance)
    (htol : tolerance ≤ DBL_MAX) :
    0 < m
    ∧ ∃ x ∈ candidateSeq f test testx, x.2.2 = m
        ∧ (locate_cell f tolerance test testx).cell = x.1
        ∧ (locate_cell f tolerance test testx).found_ref_coords = some x.2.1
        ∧ (locate_cell f tolerance test testx).found_ref_cell_dist_l1 = some m := by
  have h0m : 0 < m := by
    obtain ⟨x, hx, hxm⟩ := hmem
    exact hxm ▸ hpos x hx
  refine ⟨h0m, ?_⟩
  rw [locate_cell_eq_runCands f tolerance test testx hvar]
  exact runCands_min tolerance m (candidateSeq f test testx) initState hpos hmin
    hmem (lt_of_lt_of_le hmt htol) hmt

/-- Witness for the amended C2: exhaustive flat search over two cells at
distances 7 and 3, tolerance 10: cell 1 attains the minimum 3. -/
theorem nearest_cell_single_loop_witness :
    ((Function.mk false 0 2 0 []).sidx2 = true
       ∨ (Function.mk false 0 2 0 []).extruded = 0)
    ∧ (∀ x ∈ candidateSeq (Function.mk false 0 2 0 [])
          (fun c => ((), if c = 0 then (7 : ℚ) else 3)) (fun _ _ => ((), (5 : ℚ))),
        0 < x.2.2)
    ∧ (∀ x ∈ candidateSeq (Function.mk false 0 2 0 [])
          (fun c => ((), if c = 0 then (7 : ℚ) else 3)) (fun _ _ => ((), (5 : ℚ))),
        (3 : ℚ) ≤ x.2.2)
    ∧ (∃ x ∈ candidateSeq (Function.mk false 0 2 0 [])
          (fun c => ((), if c = 0 then (7 : ℚ) else 3)) (fun _ _ => ((), (5 : ℚ))),
        x.2.2 = (3 : ℚ))
    ∧ ((3 : ℚ) < 10)
    ∧ ((10 : ℚ) ≤ DBL_MAX)
    ∧ (0 < (3 : ℚ)
      ∧ ∃ x ∈ candidateSeq (Function.mk false 0 2 0 [])
            (fun c => ((), if c = 0 then (7 : ℚ) else 3)) (fun _ _ => ((), (5 : ℚ))),
          x.2.2 = (3 : ℚ)
          ∧ (locate_cell (Function.mk false 0 2 0 []) (10 : ℚ)
              (fun c => ((), if c = 0 then (7 : ℚ) else 3))
              (fun _ _ => ((), (5 : ℚ)))).cell = x.1
          ∧ (locate_cell (Function.mk false 0 2 0 []) (10 : ℚ)
              (fun c => ((), if c = 0 then (7 : ℚ) else 3))
              (fun _ _ => ((), (5 : ℚ)))).found_ref_coords = some x.2.1
          ∧ (locate_cell (Function.mk false 0 2 0 []) (10 : ℚ)
              (fun c => ((), if c = 0 then (7 : ℚ) else 3))
              (fun _ _ => ((), (5 : ℚ)))).found_ref_cell_dist_l1
              = some (3 : ℚ)) :=
  ⟨by decide, by decide, by decide, by decide, by decide, by decide,
    nearest_cell_single_loop (Function.mk false 0 2 0 []) 10 3
      (fun c => ((), if c = 0 then (7 : ℚ) else 3)) (fun _ _ => ((), (5 : ℚ)))
      (by decide) (by decide) (by decide) (by decide) (by decide) (by decide)⟩

/-- C2 counterexample: exhaustive layered search, two columns, one
layer, tolerance 10, distances 9 (column 0) and 3 (column 1).  All
distances are strictly positive and the minimum 3 is under the
tolerance, but the search returns cell 0 with recorded distance 9: the
nearest cell (global id 1, distance 3) is not returned because the
outer loop stops at the first accepting column. -/
theorem layered_exhaustive_not_global_min :
    ((1 : ℤ) ∈ intRange (Function.mk false 1 2 1 []).n_cols
      ∧ (0 : ℤ) ∈ intRange (Function.mk false 1 2 1 []).n_layers)
    ∧ ((0 : ℚ) < 3 ∧ (0 : ℚ) < 9 ∧ (3 : ℚ) < 9 ∧ (3 : ℚ) < 10)
    ∧ (locate_cell (Function.mk false 1 2 1 []) (10 : ℚ) (fun _ => ((), (7 : ℚ)))
        (fun c _ => ((), if c = 0 then (9 : ℚ) else 3))).cell = 0
    ∧ (locate_cell (Function.mk false 1 2 1 []) (10 : ℚ) (fun _ => ((), (7 : ℚ)))
        (fun c _ => ((), if c = 0 then (9 : ℚ) else 3))).found_ref_cell_dist_l1
        = some 9 := by
  decide

/-- C3: once a candidate has been tentatively accepted (the state
records a cell and the search did not break), processing one more
candidate whose distance is not under the tolerance changes neither the
recorded cell, nor the recorded coordinates, nor the recorded distance:
the run with that candidate inserted is observably identical to the run
without it.  This covers the claim: after a tentative acceptance the
best distance is below the tolerance, so such a candidate can in
particular never be closer than the current best. -/
theorem tentative_not_overwritten {R : Type} (tolerance : ℚ)
    (pre post : List (ℤ × R × ℚ)) (x : ℤ × R × ℚ) (s : LocState R)
    (hpre : runCands tolerance pre initState = (s, false))
    (hacc : s.cell ≠ -1)
    (hx : tolerance ≤ x.2.2) :
    (runCands tolerance (pre ++ x :: post) initState).1.cell
        = (runCands tolerance (pre ++ post) initState).1.cell
    ∧ (runCands tolerance (pre ++ x :: post) initState).1.found_ref_coords
        = (runCands tolerance (pre ++ post) initState).1.found_ref_coords
    ∧ (runCands tolerance (pre ++ x :: post) initState).1.found_ref_cell_dist_l1
        = (runCands tolerance (pre ++ post) initState).1.found_ref_cell_dist_l1 := by
  have hJ := runCands_J tolerance pre initState (by rw [hpre]) (Or.inl rfl)
  rw [hpre] at hJ
  dsimp only at hJ
  have hJ' : s.ref_cell_dist_l1 < tolerance ∧ 0 < tolerance := hJ.resolve_left hacc
  have h1 : tryCand tolerance s x.1 x.2 = ({ s with ncalls := s.ncalls + 1 }, false) := by
    apply tryCand_skip
    · have := hJ'.2
      intro hle
      linarith
    · have := hJ'.1
      intro hlt
      linarith
  rw [runCands_append, runCands_append, hpre]
  dsimp only
  simp only [Bool.false_eq_true, if_false]
  rw [runCands_cons_noBreak post (by rw [h1]),
    (by rw [h1] : (tryCand tolerance s x.1 x.2).1 = { s with ncalls := s.ncalls + 1 })]
  obtain ⟨⟨e1, e2, e3, e4⟩, -⟩ :=
    runCands_sameCore tolerance post { s with ncalls := s.ncalls + 1 } s
      ⟨rfl, rfl, rfl, rfl⟩
  exact ⟨e1, e3, e4⟩

/-- C6: in the indexed flat variant the search is the shared policy run
over the query ids shifted down by one: the containment test is invoked
at id - 1 and any reported cell is id - 1 for some query id.  In the
indexed layered variant the containment test receives the decoded
(column, layer) pair but any reported cell is the raw undecoded id. -/
theorem indexed_id_translation {R : Type}
    (f₁ f₂ : Function) (tolerance₁ tolerance₂ : ℚ)
    (test₁ test₂ : ℤ → R × ℚ) (testx₁ testx₂ : ℤ → ℤ → R × ℚ)
    (h1 : f₁.sidx2 = true) (h2 : f₁.extruded = 0)
    (h3 : f₂.sidx2 = true) (h4 : f₂.extruded ≠ 0)
    (h5 : (locate_cell f₁ tolerance₁ test₁ testx₁).cell ≠ -1)
    (h6 : (locate_cell f₂ tolerance₂ test₂ testx₂).cell ≠ -1) :
    locate_cell f₁ tolerance₁ test₁ testx₁
      = (runCands tolerance₁ (f₁.ids.map fun id => (id - 1, test₁ (id - 1)))
          initState).1
    ∧ locate_cell f₂ tolerance₂ test₂ testx₂
      = (runCands tolerance₂ (f₂.ids.map fun id =>
          (id, testx₂ (decodeLayered id f₂.n_layers).1
            (decodeLayered id f₂.n_layers).2)) initState).1
    ∧ (∃ id ∈ f₁.ids, (locate_cell f₁ tolerance₁ test₁ testx₁).cell = id - 1)
    ∧ (locate_cell f₂ tolerance₂ test₂ testx₂).cell ∈ f₂.ids := by
  have e1 : locate_cell f₁ tolerance₁ test₁ testx₁
      = (runCands tolerance₁ (f₁.ids.map fun id => (id - 1, test₁ (id - 1)))
          initState).1 := by
    rw [locate_cell_eq_runCands f₁ tolerance₁ test₁ testx₁ (Or.inl h1)]
    simp [candidateSeq, h1, h2]
  have e2 : locate_cell f₂ tolerance₂ test₂ testx₂
      = (runCands tolerance₂ (f₂.ids.map fun id =>
          (id, testx₂ (decodeLayered id f₂.n_layers).1
            (decodeLayered id f₂.n_layers).2)) initState).1 := by
    rw [locate_cell_eq_runCands f₂ tolerance₂ test₂ testx₂ (Or.inl h3)]
    simp [candidateSeq, h3, h4]
  refine ⟨e1, e2, ?_, ?_⟩
  · rcases runCands_cell_cases tolerance₁
      (f₁.ids.map fun id => (id - 1, test₁ (id - 1))) initState with hcase | hcase
    · rw [e1, hcase] at h5
      exact absurd rfl h5
    · rw [e1]
      rw [List.map_map] at hcase
      obtain ⟨id, hid, heq⟩ := List.mem_map.mp hcase
      exact ⟨id, hid, heq.symm⟩
  · rcases runCands_cell_cases tolerance₂
      (f₂.ids.map fun id =>
        (id, testx₂ (decodeLayered id f₂.n_layers).1
          (decodeLayered id f₂.n_layers).2)) initState with hcase | hcase
    · rw [e2, hcase] at h6
      exact absurd rfl h6
    · rw [e2]
      rw [List.map_map] at hcase
      obtain ⟨id, hid, heq⟩ := List.mem_map.mp hcase
      rw [← heq]
      exact hid

/-- Witness for C6: an indexed flat search over ids [1, 2] accepting
cell 0 (= 1 - 1), and an indexed layered search over id [3] with two
layers accepting the raw id 3 (column 1, layer 1). -/
theorem indexed_id_translation_witness :
    ((Function.mk true 0 0 0 [1, 2]).sidx2 = true)
    ∧ ((Function.mk true 0 0 0 [1, 2]).extruded = 0)
    ∧ ((Function.mk true 1 0 2 [3]).sidx2 = true)
    ∧ ((Function.mk true 1 0 2 [3]).extruded ≠ 0)
    ∧ ((locate_cell (Function.mk true 0 0 0 [1, 2]) (10 : ℚ)
        (fun c => ((), if c = 0 then (5 : ℚ) else 20))
        (fun _ _ => ((), (5 : ℚ)))).cell ≠ -1)
    ∧ ((locate_cell (Function.mk true 1 0 2 [3]) (10 : ℚ)
        (fun _ => ((), (5 : ℚ))) (fun _ _ => ((), (-1 : ℚ)))).cell ≠ -1)
    ∧ (locate_cell (Function.mk true 0 0 0 [1, 2]) (10 : ℚ)
        (fun c => ((), if c = 0 then (5 : ℚ) else 20)) (fun _ _ => ((), (5 : ℚ)))
      = (runCands (10 : ℚ) ((Function.mk true 0 0 0 [1, 2]).ids.map fun id =>
          (id - 1, (fun c => ((), if c = 0 then (5 : ℚ) else 20)) (id - 1)))
          initState).1
      ∧ locate_cell (Function.mk true 1 0 2 [3]) (10 : ℚ)
          (fun _ => ((), (5 : ℚ))) (fun _ _ => ((), (-1 : ℚ)))
        = (runCands (10 : ℚ) ((Function.mk true 1 0 2 [3]).ids.map fun id =>
            (id, (fun _ _ => ((), (-1 : ℚ)))
              (decodeLayered id (Function.mk true 1 0 2 [3]).n_layers).1
              (decodeLayered id (Function.mk true 1 0 2 [3]).n_layers).2))
            initState).1
      ∧ (∃ id ∈ (Function.mk true 0 0 0 [1, 2]).ids,
          (locate_cell (Function.mk true 0 0 0 [1, 2]) (10 : ℚ)
            (fun c => ((), if c = 0 then (5 : ℚ) else 20))
            (fun _ _ => ((), (5 : ℚ)))).cell = id - 1)
      ∧ (locate_cell (Function.mk true 1 0 2 [3]) (10 : ℚ)
          (fun _ => ((), (5 : ℚ))) (fun _ _ => ((), (-1 : ℚ)))).cell
          ∈ (Function.mk true 1 0 2 [3]).ids) :=
  ⟨by decide, by decide, by decide, by decide, by decide, by decide,
    indexed_id_translation (Function.mk true 0 0 0 [1, 2])
      (Function.mk true 1 0 2 [3]) 10 10
      (fun c => ((), if c = 0 then (5 : ℚ) else 20)) (fun _ => ((), (5 : ℚ)))
      (fun _ _ => ((), (5 : ℚ))) (fun _ _ => ((), (-1 : ℚ)))
      (by decide) (by decide) (by decide) (by decide) (by decide) (by decide)⟩

/-- C8 counterexample: a single candidate whose distance is exactly the
tolerance (so the minimum distance equals the tolerance and is positive)
is rejected: locate_cell returns -1, not the candidate.  Acceptance at
line 64 requires the distance to be strictly below the tolerance, so the
tolerance is not itself an accepted exit distance. -/
theorem distance_equal_tolerance_rejected_cex :
    candidateSeq (Function.mk false 0 1 0 []) (fun _ => ((), (10 : ℚ)))
        (fun _ _ => ((), (10 : ℚ))) = [((0 : ℤ), (), (10 : ℚ))]
    ∧ (0 : ℚ) < 10
    ∧ (locate_cell (Function.mk false 0 1 0 []) (10 : ℚ)
        (fun _ => ((), (10 : ℚ))) (fun _ _ => ((), (10 : ℚ)))).cell = -1 := by
  decide

/-- C8 as amended: a candidate at distance exactly the tolerance is not
accepted; in every search in which each candidate distance is positive
and at least the tolerance — in particular when the minimum distance
equals the tolerance — locate_cell returns -1.  The tolerance is a
strict upper bound on accepted exit distances, not an accepted maximum. -/
theorem distance_at_tolerance_not_accepted {R : Type} (f : Function)
    (tolerance : ℚ) (test : ℤ → R × ℚ) (testx : ℤ → ℤ → R × ℚ)
    (hsingle : ∀ x ∈ candidateSeq f test testx, 0 < x.2.2 ∧ tolerance ≤ x.2.2)
    (hlayered : f.sidx2 = false → f.extruded ≠ 0 →
      ∀ c ∈ intRange f.n_cols, ∀ l ∈ intRange f.n_layers,
        0 < (testx c l).2 ∧ tolerance ≤ (testx c l).2)
    (hattained : (∃ x ∈ candidateSeq f test testx, x.2.2 = tolerance)
      ∨ (∃ c ∈ intRange f.n_cols, ∃ l ∈ intRange f.n_layers,
          (testx c l).2 = tolerance)) :
    (locate_cell f tolerance test testx).cell = -1 := by
  by_cases hs : f.sidx2 = true
  · rw [locate_cell_eq_runCands f tolerance test testx (Or.inl hs)]
    rw [(runCands_noAccept tolerance (candidateSeq f test testx) initState hsingle).1]
    rfl
  · by_cases he : f.extruded = 0
    · rw [locate_cell_eq_runCands f tolerance test testx (Or.inr he)]
      rw [(runCands_noAccept tolerance (candidateSeq f test testx) initState hsingle).1]
      rfl
    · have hb : f.sidx2 = false := by simpa using hs
      simp only [locate_cell, hb, he]
      simp only [Bool.false_eq_true, if_false, if_neg he]
      exact (loopCols_noAccept tolerance testx f.n_layers (intRange f.n_cols)
        initState (hlayered hb he) rfl).1

/-- Witness for the amended C8: one cell at distance 10 with tolerance
10 is rejected. -/
theorem distance_at_tolerance_not_accepted_witness :
    (∀ x ∈ candidateSeq (Function.mk false 0 1 0 []) (fun _ => ((), (10 : ℚ)))
        (fun _ _ => ((), (10 : ℚ))), 0 < x.2.2 ∧ (10 : ℚ) ≤ x.2.2)
    ∧ ((Function.mk false 0 1 0 []).sidx2 = false →
        (Function.mk false 0 1 0 []).extruded ≠ 0 →
        ∀ c ∈ intRange (Function.mk false 0 1 0 []).n_cols,
        ∀ l ∈ intRange (Function.mk false 0 1 0 []).n_layers,
          0 < ((fun _ _ => ((), (10 : ℚ))) c l).2
            ∧ (10 : ℚ) ≤ ((fun _ _ => ((), (10 : ℚ))) c l).2)
    ∧ ((∃ x ∈ candidateSeq (Function.mk false 0 1 0 []) (fun _ => ((), (10 : ℚ)))
          (fun _ _ => ((), (10 : ℚ))), x.2.2 = (10 : ℚ))
        ∨ (∃ c ∈ intRange (Function.mk false 0 1 0 []).n_cols,
            ∃ l ∈ intRange (Function.mk false 0 1 0 []).n_layers,
              ((fun _ _ => ((), (10 : ℚ))) c l).2 = (10 : ℚ)))
    ∧ (locate_cell (Function.mk false 0 1 0 []) (10 : ℚ)
        (fun _ => ((), (10 : ℚ))) (fun _ _ => ((), (10 : ℚ)))).cell = -1 :=
  ⟨by decide, by decide, by decide,
    distance_at_tolerance_not_accepted (Function.mk false 0 1 0 []) 10
      (fun _ => ((), (10 : ℚ))) (fun _ _ => ((), (10 : ℚ)))
      (by decide) (by decide) (by decide)⟩

/-- C10: whenever locate_cell returns -1 the output buffers
found_ref_coords and found_ref_cell_dist_l1 have never been written (the
core writes them only when it accepts a candidate).  The indexed
variants assume the spatial-index contract on ids: 1-based ids in the
flat case, non-negative encoded ids in the layered case. -/
theorem not_found_leaves_outputs_untouched {R : Type} (f : Function)
    (tolerance : ℚ) (test : ℤ → R × ℚ) (testx : ℤ → ℤ → R × ℚ)
    (hflat : f.sidx2 = true → f.extruded = 0 → ∀ id ∈ f.ids, 1 ≤ id)
    (hxtr : f.sidx2 = true → f.extruded ≠ 0 → ∀ id ∈ f.ids, 0 ≤ id)
    (hres : (locate_cell f tolerance test testx).cell = -1) :
    (locate_cell f tolerance test testx).found_ref_coords = none
    ∧ (locate_cell f tolerance test testx).found_ref_cell_dist_l1 = none := by
  by_cases hs : f.sidx2 = true
  · have hrep : ∀ x ∈ candidateSeq f test testx, 0 ≤ x.1 := by
      by_cases he : f.extruded = 0
      · intro x hx
        have hcs : candidateSeq f test testx
            = f.ids.map (fun id => (id - 1, test (id - 1))) := by
          simp [candidateSeq, hs, he]
        rw [hcs] at hx
        obtain ⟨id, hid, heq⟩ := List.mem_map.mp hx
        subst heq
        have := hflat hs he id hid
        show 0 ≤ id - 1
        omega
      · intro x hx
        have hcs : candidateSeq f test testx
            = f.ids.map (fun id =>
                (id, testx (decodeLayered id f.n_layers).1
                  (decodeLayered id f.n_layers).2)) := by
          simp [candidateSeq, hs, he]
        rw [hcs] at hx
        obtain ⟨id, hid, heq⟩ := List.mem_map.mp hx
        subst heq
        have := hxtr hs he id hid
        show 0 ≤ id
        omega
    rw [locate_cell_eq_runCands f tolerance test testx (Or.inl hs)] at hres ⊢
    exact (runCands_inv tolerance (candidateSeq f test testx) initState hrep
      (fun _ => ⟨rfl, rfl⟩) (Or.inl rfl)).1 hres
  · by_cases he : f.extruded = 0
    · have hrep : ∀ x ∈ candidateSeq f test testx, 0 ≤ x.1 := by
        intro x hx
        have hcs : candidateSeq f test testx
            = (intRange f.n_cols).map (fun c => (c, test c)) := by
          simp [candidateSeq, hs, he]
        rw [hcs] at hx
        obtain ⟨c, hc, heq⟩ := List.mem_map.mp hx
        subst heq
        show 0 ≤ c
        exact (mem_intRange.mp hc).1
      rw [locate_cell_eq_runCands f tolerance test testx (Or.inr he)] at hres ⊢
      exact (runCands_inv tolerance (candidateSeq f test testx) initState hrep
        (fun _ => ⟨rfl, rfl⟩) (Or.inl rfl)).1 hres
    · have hb : f.sidx2 = false := by simpa using hs
      simp only [locate_cell, hb, he] at hres ⊢
      simp only [Bool.false_eq_true, if_false, if_neg he] at hres ⊢
      exact loopCols_inv tolerance testx f.n_layers (intRange f.n_cols) initState
        (fun c hc => (mem_intRange.mp hc).1) rfl rfl rfl hres

/-- Witness for C10: an exhaustive flat search over two cells at
distance 7 with tolerance 5 returns -1 and leaves both output buffers
unwritten. -/
theorem not_found_leaves_outputs_untouched_witness :
    ((Function.mk false 0 2 0 []).sidx2 = true →
      (Function.mk false 0 2 0 []).extruded = 0 →
      ∀ id ∈ (Function.mk false 0 2 0 []).ids, 1 ≤ id)
    ∧ ((Function.mk false 0 2 0 []).sidx2 = true →
        (Function.mk false 0 2 0 []).extruded ≠ 0 →
        ∀ id ∈ (Function.mk false 0 2 0 []).ids, 0 ≤ id)
    ∧ ((locate_cell (Function.mk false 0 2 0 []) (5 : ℚ)
        (fun _ => ((), (7 : ℚ))) (fun _ _ => ((), (7 : ℚ)))).cell = -1)
    ∧ ((locate_cell (Function.mk false 0 2 0 []) (5 : ℚ)
          (fun _ => ((), (7 : ℚ))) (fun _ _ => ((), (7 : ℚ)))).found_ref_coords = none
      ∧ (locate_cell (Function.mk false 0 2 0 []) (5 : ℚ)
          (fun _ => ((), (7 : ℚ)))
          (fun _ _ => ((), (7 : ℚ)))).found_ref_cell_dist_l1 = none) :=
  ⟨by decide, by decide, by decide,
    not_found_leaves_outputs_untouched (Function.mk false 0 2 0 []) 5
      (fun _ => ((), (7 : ℚ))) (fun _ _ => ((), (7 : ℚ)))
      (by decide) (by decide) (by decide)⟩

/-- Witness for C3: after the tentative acceptance of cell 0 at distance
5 (tolerance 10), inserting a candidate at distance 20 changes nothing. -/
theorem tentative_not_overwritten_witness :
    (runCands (10 : ℚ) [((0 : ℤ), Unit.unit, (5 : ℚ))] initState
        = (LocState.mk 0 5 (some Unit.unit) (some 5) 1, false))
    ∧ ((LocState.mk (R := Unit) 0 5 (some Unit.unit) (some 5) 1).cell ≠ -1)
    ∧ ((10 : ℚ) ≤ ((7 : ℤ), Unit.unit, (20 : ℚ)).2.2)
    ∧ ((runCands (10 : ℚ) ([((0 : ℤ), Unit.unit, (5 : ℚ))]
          ++ ((7 : ℤ), Unit.unit, (20 : ℚ)) :: []) initState).1.cell
        = (runCands (10 : ℚ) ([((0 : ℤ), Unit.unit, (5 : ℚ))] ++ []) initState).1.cell
      ∧ (runCands (10 : ℚ) ([((0 : ℤ), Unit.unit, (5 : ℚ))]
          ++ ((7 : ℤ), Unit.unit, (20 : ℚ)) :: []) initState).1.found_ref_coords
        = (runCands (10 : ℚ) ([((0 : ℤ), Unit.unit, (5 : ℚ))]
            ++ []) initState).1.found_ref_coords
      ∧ (runCands (10 : ℚ) ([((0 : ℤ), Unit.unit, (5 : ℚ))]
          ++ ((7 : ℤ), Unit.unit, (20 : ℚ)) :: []) initState).1.found_ref_cell_dist_l1
        = (runCands (10 : ℚ) ([((0 : ℤ), Unit.unit, (5 : ℚ))]
            ++ []) initState).1.found_ref_cell_dist_l1) :=
  ⟨by decide, by decide, by decide,
    tentative_not_overwritten 10 [((0 : ℤ), Unit.unit, (5 : ℚ))] []
      ((7 : ℤ), Unit.unit, (20 : ℚ))
      (LocState.mk 0 5 (some Unit.unit) (some 5) 1)
      (by decide) (by decide) (by decide)⟩

/-- C4: for every search in which every candidate has a strictly
positive containment-test distance at least the tolerance, locate_cell
returns the not-found sentinel -1.  The first hypothesis covers the
three single-loop variants via their candidate sequence; the second
covers the exhaustive layered variant. -/
theorem all_far_returns_not_found {R : Type} (f : Function) (tolerance : ℚ)
    (test : ℤ → R × ℚ) (testx : ℤ → ℤ → R × ℚ)
    (hsingle : ∀ x ∈ candidateSeq f test testx, 0 < x.2.2 ∧ tolerance ≤ x.2.2)
    (hlayered : f.sidx2 = false → f.extruded ≠ 0 →
      ∀ c ∈ intRange f.n_cols, ∀ l ∈ intRange f.n_layers,
        0 < (testx c l).2 ∧ tolerance ≤ (testx c l).2) :
    (locate_cell f tolerance test testx).cell = -1 := by
  by_cases hs : f.sidx2 = true
  · rw [locate_cell_eq_runCands f tolerance test testx (Or.inl hs)]
    rw [(runCands_noAccept tolerance (candidateSeq f test testx) initState hsingle).1]
    rfl
  · by_cases he : f.extruded = 0
    · rw [locate_cell_eq_runCands f tolerance test testx (Or.inr he)]
      rw [(runCands_noAccept tolerance (candidateSeq f test testx) initState hsingle).1]
      rfl
    · have hb : f.sidx2 = false := by simpa using hs
      simp only [locate_cell, hb, he]
      simp only [Bool.false_eq_true, if_false, if_neg he]
      exact (loopCols_noAccept tolerance testx f.n_layers (intRange f.n_cols)
        initState (hlayered hb he) rfl).1

/-- Witness for C4 at a concrete exhaustive layered search: one column,
two layers, all distances 5, tolerance 1. -/
theorem all_far_returns_not_found_witness :
    (∀ x ∈ candidateSeq (Function.mk false 1 1 2 [])
        (fun _ => ((), (5 : ℚ))) (fun _ _ => ((), (5 : ℚ))),
      0 < x.2.2 ∧ (1 : ℚ) ≤ x.2.2)
    ∧ ((Function.mk false 1 1 2 []).sidx2 = false →
        (Function.mk false 1 1 2 []).extruded ≠ 0 →
        ∀ c ∈ intRange (Function.mk false 1 1 2 []).n_cols,
        ∀ l ∈ intRange (Function.mk false 1 1 2 []).n_layers,
          0 < ((fun _ _ => ((), (5 : ℚ))) c l).2
            ∧ (1 : ℚ) ≤ ((fun _ _ => ((), (5 : ℚ))) c l).2)
    ∧ (locate_cell (Function.mk false 1 1 2 []) (1 : ℚ)
        (fun _ => ((), (5 : ℚ))) (fun _ _ => ((), (5 : ℚ)))).cell = -1 :=
  ⟨by decide, by decide,
    all_far_returns_not_found (Function.mk false 1 1 2 []) 1
      (fun _ => ((), (5 : ℚ))) (fun _ _ => ((), (5 : ℚ))) (by decide) (by decide)⟩

/-- C5: the layered id codec round-trips: encoding a column and a layer
with `column * layerCount + layer` and decoding with truncating division
and remainder recovers the pair, for any column in [0, C) and layer in
[0, L). -/
theorem layered_codec_round_trip (C L c l : ℤ) (h1 : 0 ≤ c) (h2 : c < C)
    (h3 : 0 ≤ l) (h4 : l < L) :
    decodeLayered (encodeLayered c l L) L = (c, l) := by
  have hL : 0 < L := lt_of_le_of_lt h3 h4
  have henc : 0 ≤ c * L + l := add_nonneg (mul_nonneg h1 hL.le) h3
  unfold decodeLayered encodeLayered
  rw [Int.tdiv_eq_ediv henc hL.le, Int.tmod_eq_emod henc hL.le]
  have hdiv : (c * L + l) / L = c := by
    rw [add_comm, Int.add_mul_ediv_right l c (ne_of_gt hL),
      Int.ediv_eq_zero_of_lt h3 h4, zero_add]
  have hmod : (c * L + l) % L = l := by
    rw [add_comm, Int.add_mul_emod_self, Int.emod_eq_of_lt h3 h4]
  rw [hdiv, hmod]

/-- Witness for C5 at column 2, layer 1 of a 3-column, 3-layer mesh. -/
theorem layered_codec_round_trip_witness :
    (0 ≤ (2 : ℤ)) ∧ ((2 : ℤ) < 3) ∧ (0 ≤ (1 : ℤ)) ∧ ((1 : ℤ) < 3)
    ∧ decodeLayered (encodeLayered 2 1 3) 3 = (2, 1) :=
  ⟨by decide, by decide, by decide, by decide,
    layered_codec_round_trip 3 3 2 1 (by decide) (by decide) (by decide) (by decide)⟩

/-- C7: if the spatial-index query reports an error, the indexed search
aborts with -1, invokes no containment test and touches no output
buffer; and locate_cell itself always reaches the indexed branch with
the flag equal to RT_None (line 17 is never reassigned), so the error
branch cannot fire there. -/
theorem index_failure_aborts {R : Type} (err : RTError) (extruded n_layers : ℤ)
    (ids : List ℤ) (tolerance : ℚ) (test : ℤ → R × ℚ) (testx : ℤ → ℤ → R × ℚ)
    (f : Function) (tolerance₂ : ℚ) (test₂ : ℤ → R × ℚ) (testx₂ : ℤ → ℤ → R × ℚ)
    (herr : err ≠ RTError.RT_None) (hs : f.sidx2 = true) :
    (locate_indexed err extruded n_layers ids tolerance test testx).state.cell = -1
    ∧ (locate_indexed err extruded n_layers ids tolerance test testx).state.ncalls = 0
    ∧ (locate_indexed err extruded n_layers ids tolerance
        test testx).state.found_ref_coords = none
    ∧ (locate_indexed err extruded n_layers ids tolerance
        test testx).state.found_ref_cell_dist_l1 = none
    ∧ locate_cell f tolerance₂ test₂ testx₂
        = (locate_indexed RTError.RT_None f.extruded f.n_layers f.ids tolerance₂
            test₂ testx₂).state := by
  refine ⟨?_, ?_, ?_, ?_, ?_⟩
  · simp [locate_indexed, herr, initState]
  · simp [locate_indexed, herr, initState]
  · simp [locate_indexed, herr, initState]
  · simp [locate_indexed, herr, initState]
  · simp [locate_cell, hs]

/-- Witness for C7 with a concrete failing flag and a concrete indexed
search. -/
theorem index_failure_aborts_witness :
    (RTError.RT_Error ≠ RTError.RT_None)
    ∧ ((Function.mk true 0 1 1 ([] : List ℤ)).sidx2 = true)
    ∧ ((locate_indexed (R := Unit) RTError.RT_Error 0 1 [1] 1
          (fun _ => ((), (5 : ℚ))) (fun _ _ => ((), (5 : ℚ)))).state.cell = -1
      ∧ (locate_indexed (R := Unit) RTError.RT_Error 0 1 [1] 1
          (fun _ => ((), (5 : ℚ))) (fun _ _ => ((), (5 : ℚ)))).state.ncalls = 0
      ∧ (locate_indexed (R := Unit) RTError.RT_Error 0 1 [1] 1
          (fun _ => ((), (5 : ℚ))) (fun _ _ => ((), (5 : ℚ)))).state.found_ref_coords
          = none
      ∧ (locate_indexed (R := Unit) RTError.RT_Error 0 1 [1] 1
          (fun _ => ((), (5 : ℚ))) (fun _ _ => ((), (5 : ℚ)))).state.found_ref_cell_dist_l1
          = none
      ∧ locate_cell (Function.mk true 0 1 1 ([] : List ℤ)) (1 : ℚ)
          (fun _ => ((), (5 : ℚ))) (fun _ _ => ((), (5 : ℚ)))
        = (locate_indexed RTError.RT_None (Function.mk true 0 1 1 ([] : List ℤ)).extruded
            (Function.mk true 0 1 1 ([] : List ℤ)).n_layers
            (Function.mk true 0 1 1 ([] : List ℤ)).ids (1 : ℚ)
            (fun _ => ((), (5 : ℚ))) (fun _ _ => ((), (5 : ℚ)))).state) :=
  ⟨by decide, by decide,
    index_failure_aborts RTError.RT_Error 0 1 [1] 1
      (fun _ => ((), (5 : ℚ))) (fun _ _ => ((), (5 : ℚ)))
      (Function.mk true 0 1 1 ([] : List ℤ)) 1
      (fun _ => ((), (5 : ℚ))) (fun _ _ => ((), (5 : ℚ)))
      (by decide) (by decide)⟩

/-- C9 counterexample: on the index-query-failure exit path (line 48)
the candidate-id buffer is not released: the early return precedes
free(ids) at line 98.  The claim that the buffer is released on every
exit path including the failure path is therefore false of the code. -/
theorem error_path_leaks_ids :
    RTError.RT_Error ≠ RTError.RT_None
    ∧ (locate_indexed (R := Unit) RTError.RT_Error 0 1 [1] 1
        (fun _ => ((), (5 : ℚ))) (fun _ _ => ((), (5 : ℚ)))).state.cell = -1
    ∧ (locate_indexed (R := Unit) RTError.RT_Error 0 1 [1] 1
        (fun _ => ((), (5 : ℚ))) (fun _ _ => ((), (5 : ℚ)))).idsFreed = false := by
  refine ⟨by decide, by decide, by decide⟩

/-- C9 as amended: the buffer is released on every exit path actually
reachable from locate_cell, that is on all paths of the indexed branch
with the error flag at its only value RT_None (exact hit, tentative
acceptance, not found); the failure path does not release it but is
unreachable because the flag is never set. -/
theorem ids_freed_on_normal_paths {R : Type} (f : Function) (tolerance : ℚ)
    (test : ℤ → R × ℚ) (testx : ℤ → ℤ → R × ℚ) (hs : f.sidx2 = true) :
    (locate_indexed RTError.RT_None f.extruded f.n_layers f.ids tolerance
        test testx).idsFreed = true
    ∧ locate_cell f tolerance test testx
        = (locate_indexed RTError.RT_None f.extruded f.n_layers f.ids tolerance
            test testx).state := by
  constructor
  · by_cases he : f.extruded = 0 <;> simp [locate_indexed, he]
  · simp [locate_cell, hs]

/-- Witness for the amended C9 at a concrete indexed search. -/
theorem ids_freed_on_normal_paths_witness :
    ((Function.mk true 0 1 1 [1]).sidx2 = true)
    ∧ ((locate_indexed RTError.RT_None (Function.mk true 0 1 1 [1]).extruded
          (Function.mk true 0 1 1 [1]).n_layers (Function.mk true 0 1 1 [1]).ids
          (1 : ℚ) (fun _ => ((), (5 : ℚ))) (fun _ _ => ((), (5 : ℚ)))).idsFreed = true
      ∧ locate_cell (Function.mk true 0 1 1 [1]) (1 : ℚ)
          (fun _ => ((), (5 : ℚ))) (fun _ _ => ((), (5 : ℚ)))
        = (locate_indexed RTError.RT_None (Function.mk true 0 1 1 [1]).extruded
            (Function.mk true 0 1 1 [1]).n_layers (Function.mk true 0 1 1 [1]).ids
            (1 : ℚ) (fun _ => ((), (5 : ℚ))) (fun _ _ => ((), (5 : ℚ)))).state) :=
  ⟨by decide,
    ids_freed_on_normal_paths (Function.mk true 0 1 1 [1]) 1
      (fun _ => ((), (5 : ℚ))) (fun _ _ => ((), (5 : ℚ))) (by decide)⟩

end Locate
